import Mathlib

/-!
Shallow embedding of the bank-statement ingestion pipeline of
`backend/crud.py` (functions `parse_bank_excel`, `apply_import_rules`,
`get_import_rules`) and proofs of the specification claims about it.

Modelling conventions:
* Cells of the loaded table are `Option String`: `none` stands for a
  pandas NaN cell, `some s` for the cell whose `str()` is `s`.
* Python string operations (strip, split, replace, slicing, `in`) are
  implemented structurally over the code-point list of the string, which
  is exactly Python's sequence-of-code-points view.
* Python `float` amounts are modelled as exact rationals (`Rat`), built
  with `mkRat`; the decimal strings in bank cells are represented exactly.
* The pandas table loader (`pd.read_excel` / `pd.read_csv`) is an external
  library; `parse_bank_excel` here receives its result (`Option Table`).
* The permissive fallback date parser `pd.to_datetime(_, errors='coerce')`
  is likewise external and is passed in as a parameter
  `gd : String → Option SDate` (`none` = NaT, i.e. unparseable).
* The persistence layer is modelled as the given user's slice of the
  `transactions` and `pending_transactions` stores (the SQL queries filter
  on `user_id`, so only that slice is observable to one import call).
-/

/-- Python `a in b` on strings, helper: does `hay` start with `n`? -/
def subStartsWith : List Char → List Char → Bool
  | [], _ => true
  | _ :: _, [] => false
  | a :: as, b :: bs => a == b && subStartsWith as bs

/-- Helper for `strHasSub`: does `n` occur as a contiguous sublist? -/
def hasSubList (n : List Char) : List Char → Bool
  | [] => n.isEmpty
  | b :: bs => subStartsWith n (b :: bs) || hasSubList n bs

/-- Python substring containment `needle in hay`. -/
def strHasSub (needle hay : String) : Bool :=
  hasSubList needle.toList hay.toList

/-- Python `str.lower()` restricted to the characters that can occur in the
pipeline's keyword tables (ASCII plus the accented Spanish vowels and ñ);
full Unicode case mapping is not needed by any keyword set. -/
def pyCharLower (c : Char) : Char :=
  if 'A' ≤ c ∧ c ≤ 'Z' then Char.ofNat (c.toNat + 32)
  else if c = 'Á' then 'á'
  else if c = 'É' then 'é'
  else if c = 'Í' then 'í'
  else if c = 'Ó' then 'ó'
  else if c = 'Ú' then 'ú'
  else if c = 'Ñ' then 'ñ'
  else c

/-- Python `str.lower()` on a whole string. -/
def pyLower (s : String) : String := String.mk (s.toList.map pyCharLower)

/-- Python `str.strip()` on a code-point list (Python also strips the rare
vertical-tab/form-feed characters; no keyword or claim involves those). -/
def pyStripL (cs : List Char) : List Char :=
  ((cs.dropWhile Char.isWhitespace).reverse.dropWhile Char.isWhitespace).reverse

/-- Python `str.strip()`. -/
def pyStrip (s : String) : String := String.mk (pyStripL s.toList)

/-- Python `str.split(sep)` for a one-character separator, helper. -/
def pySplitAux (sep : Char) (acc : List Char) : List Char → List (List Char)
  | [] => [acc.reverse]
  | c :: cs =>
    if c == sep then acc.reverse :: pySplitAux sep [] cs
    else pySplitAux sep (c :: acc) cs

/-- Python `str.split(sep)` for a one-character separator (keeps empty
pieces, exactly like Python). -/
def pySplit (sep : Char) (s : String) : List String :=
  (pySplitAux sep [] s.toList).map String.mk

/-- Python `s.replace(old, '')` for a one-character `old`: drop every
occurrence. -/
def pyRemoveAll (old : Char) (s : String) : String :=
  String.mk (s.toList.filter (fun c => c ≠ old))

/-- Python `s.replace(old, new)` for one-character `old` and `new`. -/
def pyReplaceChar (old new : Char) (s : String) : String :=
  String.mk (s.toList.map (fun c => if c = old then new else c))

/-- Python `s[:n]` (slice of the first `n` code points). -/
def pyTake (n : Nat) (s : String) : String := String.mk (s.toList.take n)

/-- Python `c in s` for a single character. -/
def pyHasChar (c : Char) (s : String) : Bool := s.toList.any (fun x => x == c)

/-- Keyword list for the date role (`['fecha', 'date']` in the source). -/
def dateWords : List String := ["fecha", "date"]

/-- Keyword list for the description role. -/
def descWords : List String :=
  ["descripción", "descripcion", "description", "detalle", "glosa"]

/-- Keyword list for the debit (cargo) role. -/
def cargoWords : List String := ["cargo", "cargos", "debe", "egreso", "gasto"]

/-- Keyword list for the credit (abono) role. -/
def abonoWords : List String :=
  ["abono", "abonos", "haber", "ingreso", "deposito", "depósito"]

/-- `any(word in col_lower for word in words)` from the source. -/
def anyWordIn (words : List String) (col_lower : String) : Bool :=
  words.any (fun w => strHasSub w col_lower)

/-- The role→column map being built by the resolver loop: indices of the
columns currently held by each of the four roles. -/
structure ColMap where
  date_col : Option Nat
  desc_col : Option Nat
  cargo_col : Option Nat
  abono_col : Option Nat
deriving DecidableEq, Repr

/-- One iteration of the resolver loop of `parse_bank_excel`: the column
label (already trimmed by `df.columns.str.strip()`) is lowercased and
tested against the four keyword lists in order by an `if/elif` chain,
overwriting the role's current holder on a hit. -/
def resolveStep (acc : ColMap) (ic : Nat × String) : ColMap :=
  let col_lower := pyLower ic.2
  if anyWordIn dateWords col_lower then { acc with date_col := some ic.1 }
  else if anyWordIn descWords col_lower then { acc with desc_col := some ic.1 }
  else if anyWordIn cargoWords col_lower then { acc with cargo_col := some ic.1 }
  else if anyWordIn abonoWords col_lower then { acc with abono_col := some ic.1 }
  else acc

/-- The column resolver of `parse_bank_excel` (crud.py lines 1104-1124):
labels are trimmed, lowercased, and scanned in column order. -/
def resolveColumns (headers : List String) : ColMap :=
  ((headers.map pyStrip).enum).foldl resolveStep ⟨none, none, none, none⟩

/-- Modelled from the claim's words (not the source), for comparison in C2:
each role goes to the FIRST column whose trimmed, lowercased label is a
MEMBER of the role's keyword set. -/
def specResolveFirstMember (headers : List String) : ColMap :=
  let low := headers.map (fun h => pyLower (pyStrip h))
  let firstIdx := fun (words : List String) =>
    (low.enum.find? (fun ic => words.any (fun w => decide (w = ic.2)))).map (·.1)
  ⟨firstIdx dateWords, firstIdx descWords, firstIdx cargoWords,
    firstIdx abonoWords⟩

/-- Index of the last element of `l` satisfying `p`, if any. -/
def lastIdxP (p : α → Bool) (l : List α) : Option Nat :=
  ((l.enum.filter (fun ic => p ic.2)).getLast?).map (·.1)

/-- A calendar date (`datetime.date`). -/
structure SDate where
  year : Int
  month : Nat
  day : Nat
deriving DecidableEq, Repr

/-- Gregorian leap-year rule used by `datetime`. -/
def isLeap (y : Int) : Bool := y % 4 = 0 && (y % 100 ≠ 0 || y % 400 = 0)

/-- Days in a month as validated by the `datetime` constructor. -/
def daysInMonth (y : Int) (m : Nat) : Nat :=
  if m = 2 then (if isLeap y then 29 else 28)
  else if m = 4 ∨ m = 6 ∨ m = 9 ∨ m = 11 then 30
  else 31

/-- The Spanish month dictionary `meses_es` of `parse_bank_excel`; the
source maps to the two-digit strings "01".."12", which `strptime` then
reads back, so the value is modelled directly as the month number. -/
def meses_es : List (String × Nat) :=
  [("ene", 1), ("enero", 1), ("feb", 2), ("febrero", 2),
   ("mar", 3), ("marzo", 3), ("abr", 4), ("abril", 4),
   ("may", 5), ("mayo", 5), ("jun", 6), ("junio", 6),
   ("jul", 7), ("julio", 7), ("ago", 8), ("agosto", 8),
   ("sep", 9), ("septiembre", 9), ("oct", 10), ("octubre", 10),
   ("nov", 11), ("noviembre", 11), ("dic", 12), ("diciembre", 12)]

/-- Exact-key dictionary lookup (`meses_es.get(mes_str, default)` without
the default). -/
def lookupMes (k : String) : List (String × Nat) → Option Nat
  | [] => none
  | p :: ps => if p.1 = k then some p.2 else lookupMes k ps

/-- Python `str.zfill`: left-pad with zeros to length `n` (the sign-aware
corner of `zfill` only differs on inputs that fail `strptime` either way). -/
def zfill (n : Nat) (s : String) : String :=
  if n ≤ s.toList.length then s
  else String.mk (List.replicate (n - s.toList.length) '0' ++ s.toList)

/-- Numeric value of a digit string. -/
def digitsVal (cs : List Char) : Nat :=
  cs.foldl (fun a c => 10 * a + (c.toNat - 48)) 0

/-- `datetime.strptime(f"{anio}-{mes}-{dia}", "%Y-%m-%d").date()` where
`mes` is one of "01".."12" (always, by construction of `meses_es`) and
`dia` is the zfilled day token: succeeds iff the year renders as four
digits, the day token is exactly two digits, and the day is valid for the
month (constructor validation, leap years included). -/
def strptimeYMD (anio : Int) (mes : Nat) (dia : String) : Option SDate :=
  let ds := dia.toList
  if 1000 ≤ anio ∧ anio ≤ 9999 ∧ ds.length = 2 ∧ ds.all Char.isDigit then
    let d := digitsVal ds
    if 1 ≤ d ∧ d ≤ daysInMonth anio mes then some ⟨anio, mes, d⟩ else none
  else none

/-- The year-inference rule of `parse_bank_excel` (December seen in
January → previous year; January seen in December → next year). -/
def inferYear (now : SDate) (mes : Nat) : Int :=
  if mes = 12 ∧ now.month = 1 then now.year - 1
  else if mes = 1 ∧ now.month = 12 then now.year + 1
  else now.year

/-- The Spanish shorthand date branch of `parse_bank_excel` (crud.py lines
1169-1192): pre-check (`'/' in fecha_str` and some month key occurs as a
substring of the lowercased cell), split on `'/'`, zfill the day, look the
month token up with default "01", infer the year, and `strptime`. -/
def parseShorthand (now : SDate) (fecha_str : String) : Option SDate :=
  if pyHasChar '/' fecha_str
      && meses_es.any (fun p => strHasSub p.1 (pyLower fecha_str)) then
    let parts := pySplit '/' fecha_str
    if parts.length = 2 then
      let dia := zfill 2 (parts.getD 0 "")
      let mes := (lookupMes (pyLower (parts.getD 1 "")) meses_es).getD 1
      strptimeYMD (inferYear now mes) mes dia
    else none
  else none

/-- Date parsing of one cell: the shorthand branch on the stripped cell
first; if it produced nothing, the permissive pandas fallback `gd` on the
raw cell (`pd.to_datetime(fecha_raw, errors='coerce')`, external). -/
def parseDateCell (gd : String → Option SDate) (now : SDate)
    (raw : String) : Option SDate :=
  match parseShorthand now (pyStrip raw) with
  | some d => some d
  | none => gd raw

/-- Python `float` on an unsigned body: digits with an optional single
decimal point, at least one digit in total; the value is exact. Exponent,
underscore and inf/nan spellings of `float` are not modelled: the pipeline
feeds `float` only strings whose periods were all removed beforehand. -/
def parseUnsignedFloat (cs : List Char) : Option Rat :=
  let ip := cs.takeWhile Char.isDigit
  let rest := cs.dropWhile Char.isDigit
  match rest with
  | [] => if ip.isEmpty then none else some (mkRat (digitsVal ip) 1)
  | '.' :: frac =>
    if frac.all Char.isDigit && !(ip.isEmpty && frac.isEmpty) then
      some (mkRat (digitsVal ip * 10 ^ frac.length + digitsVal frac)
        (10 ^ frac.length))
    else none
  | _ => none

/-- Python `float(s)` with an optional sign, as an exact rational. -/
def pyFloat? (s : String) : Option Rat :=
  match s.toList with
  | '-' :: rest => (parseUnsignedFloat rest).map (fun q => -q)
  | '+' :: rest => parseUnsignedFloat rest
  | cs => parseUnsignedFloat cs

/-- The per-column amount logic of `parse_bank_excel` (crud.py lines
1214-1238): absent column or NaN/blank cell gives 0; otherwise strip the
periods, turn the comma into a period, strip, and `float`; any parse
failure leaves the amount at 0. -/
def readAmount (r : List (Option String)) (colIdx : Option Nat) : Rat :=
  match colIdx with
  | none => 0
  | some i =>
    match r.getD i none with
    | none => 0
    | some s =>
      if pyStrip s = "" then 0
      else
        let norm := pyStrip (pyReplaceChar ',' '.' (pyRemoveAll '.' s))
        if norm = "" then 0 else (pyFloat? norm).getD 0

/-- Description boilerplate markers that cause a row to be skipped. -/
def boilerWords : List String := ["subtotal", "notas:", "información referencial"]

/-- The resolved column indices handed to the row loop. -/
structure RowCfg where
  date_col : Nat
  desc_col : Nat
  cargo_col : Option Nat
  abono_col : Option Nat
deriving Repr

/-- A normalized row about to enter dedup/categorization. -/
structure NormRow where
  fecha : SDate
  amount : Rat
  ttype : Nat
  descripcion : String
  descripcion_corta : String
deriving DecidableEq, Repr

/-- The row normalizer: the body of the per-row loop of `parse_bank_excel`
(crud.py lines 1141-1249) up to the dedup check. `none` is a skipped row
(`continue`); ragged rows are NaN-filled by pandas, hence `getD _ none`.
A NaN description cell prints as the literal string "nan". `ttype` 2 is
gasto (expense), 1 is ingreso (income). -/
def processRow (cfg : RowCfg) (gd : String → Option SDate) (now : SDate)
    (r : List (Option String)) : Option NormRow :=
  match r.getD cfg.date_col none with
  | none => none
  | some fecha_raw =>
    match parseDateCell gd now fecha_raw with
    | none => none
    | some fecha =>
      let descripcion :=
        match r.getD cfg.desc_col none with
        | none => "nan"
        | some s => pyStrip s
      if descripcion = "nan" ∨ descripcion = "" then none
      else if anyWordIn boilerWords (pyLower descripcion) then none
      else
        let cargo := readAmount r cfg.cargo_col
        let abono := readAmount r cfg.abono_col
        if 0 < cargo then
          some ⟨fecha, cargo, 2, descripcion, pyTake 200 descripcion⟩
        else if 0 < abono then
          some ⟨fecha, abono, 1, descripcion, pyTake 200 descripcion⟩
        else none

/-- The identity on which both dedup queries filter (besides `user_id`,
fixed per call): `date`, `amount`, `description` (the truncated one). -/
structure TxKey where
  date : SDate
  amount : Rat
  description : String
deriving DecidableEq, Repr

/-- The given user's slice of the persistence layer: keys of confirmed
`Transaction` rows and of persisted `PendingTransaction` rows. -/
structure DBState where
  confirmed : List TxKey
  pendingTx : List TxKey
deriving Repr

/-- The dedup check of `parse_bank_excel` (crud.py lines 1251-1273): does a
confirmed or a pending record with the same (date, amount, short
description) exist for this user?  The session is the standard FastAPI
`sessionmaker(autocommit=False, autoflush=False)` one (`backend/database.py`),
so mid-loop queries see only persisted state, not rows `db.add`ed earlier
in the same batch; `DBState` is therefore constant across the loop. -/
def existsRecorded (db : DBState) (k : TxKey) : Bool :=
  db.confirmed.any (fun x => decide (x = k))
    || db.pendingTx.any (fun x => decide (x = k))

/-- An `ImportRule` row as read by `get_import_rules`. -/
structure ImportRule where
  keyword : String
  category_id : Nat
  priority : Int
  is_active : Bool
deriving DecidableEq, Repr

/-- `get_import_rules` (crud.py lines 872-877): the user's active rules
ordered by descending priority (`ORDER BY priority DESC`; a stable sort,
ties keep arrival order). Input is the user's rule rows in arrival order. -/
def get_import_rules (rules : List ImportRule) : List ImportRule :=
  (rules.filter (·.is_active)).insertionSort (fun a b => b.priority ≤ a.priority)

/-- `apply_import_rules` (crud.py lines 925-936): lowercase the
description; the first rule, in priority order, whose lowercased keyword
is a substring wins and supplies its `category_id`. -/
def apply_import_rules (rules : List ImportRule) (description : String) :
    Option Nat :=
  let description_lower := pyLower description
  ((get_import_rules rules).find?
      (fun r => strHasSub (pyLower r.keyword) description_lower)).map
    (·.category_id)

/-- A `PendingTransaction` as created by the pipeline (the emitted
CandidateTransaction). The random `import_batch_id` (a uuid prefix shared
by the whole call) carries no information for any claim and is omitted. -/
structure Candidate where
  category_id : Option Nat
  amount : Rat
  ttype : Nat
  description : String
  raw_description : String
  date : SDate
  auto_categorized : Bool
deriving DecidableEq, Repr

/-- The counters and emitted list accumulated by the row loop. -/
structure LoopState where
  total_imported : Nat
  duplicates_skipped : Nat
  auto_categorized : Nat
  pending_transactions : List Candidate
deriving DecidableEq, Repr

/-- What the loop body does with one row. -/
inductive RowOutcome
  | skip
  | dup
  | emit (c : Candidate)
deriving DecidableEq, Repr

/-- The dedup key of a normalized row (`descripcion_corta` is what both
queries and the stored `description` use). -/
def keyOf (nr : NormRow) : TxKey := ⟨nr.fecha, nr.amount, nr.descripcion_corta⟩

/-- Outcome of one loop iteration (crud.py lines 1251-1297): skip, count a
duplicate, or build the pending transaction, auto-categorizing via
`apply_import_rules` on the full (untruncated) description. -/
def rowOutcome (cfg : RowCfg) (gd : String → Option SDate) (now : SDate)
    (db : DBState) (rules : List ImportRule)
    (r : List (Option String)) : RowOutcome :=
  match processRow cfg gd now r with
  | none => .skip
  | some nr =>
    if existsRecorded db (keyOf nr) then .dup
    else
      let category_id := apply_import_rules rules nr.descripcion
      .emit ⟨category_id, nr.amount, nr.ttype, nr.descripcion_corta,
             nr.descripcion, nr.fecha, category_id.isSome⟩

/-- The row loop of `parse_bank_excel`. The source iterates front to back
mutating counters; since the dedup check reads only the constant `db`,
each row's outcome is independent of the accumulator, and the loop is
presented as structural recursion producing the same counters and the
same front-to-back `pending_transactions` order. -/
def runRows (cfg : RowCfg) (gd : String → Option SDate) (now : SDate)
    (db : DBState) (rules : List ImportRule) :
    List (List (Option String)) → LoopState
  | [] => ⟨0, 0, 0, []⟩
  | r :: rs =>
    let rest := runRows cfg gd now db rules rs
    match rowOutcome cfg gd now db rules r with
    | .skip => rest
    | .dup => { rest with duplicates_skipped := rest.duplicates_skipped + 1 }
    | .emit c =>
      ⟨rest.total_imported + 1, rest.duplicates_skipped,
       rest.auto_categorized + (if c.auto_categorized then 1 else 0),
       c :: rest.pending_transactions⟩

/-- The table produced by the external loader: column labels and rows. -/
structure Table where
  headers : List String
  rows : List (List (Option String))
deriving Repr

/-- The serialized statistics returned by `parse_bank_excel`. -/
structure ImportResult where
  total_imported : Nat
  auto_categorized : Nat
  needs_review : Nat
  duplicates_skipped : Nat
  pending_transactions : List Candidate
deriving DecidableEq, Repr

/-- `parse_bank_excel` (crud.py lines 1055-1340) downstream of the
external pandas loader, whose result is `df : Option Table` (`none`: no
attempt yielded a table). Failure of the loader or of the column
resolution raises `ValueError` (`Except.error`); otherwise the row loop
runs and the statistics dictionary is returned. -/
def parse_bank_excel (gd : String → Option SDate) (now : SDate)
    (db : DBState) (rules : List ImportRule) (df : Option Table) :
    Except String ImportResult :=
  match df with
  | none => .error "No se pudo leer el archivo. Verifica el formato."
  | some t =>
    if t.rows.isEmpty then
      .error "No se pudo leer el archivo. Verifica el formato."
    else
      let cm := resolveColumns t.headers
      match cm.date_col with
      | none => .error "No se encontró columna de fecha."
      | some di =>
        match cm.desc_col with
        | none => .error "No se encontró columna de descripción."
        | some de =>
          if cm.cargo_col.isNone && cm.abono_col.isNone then
            .error "No se encontraron columnas de Cargo/Abono."
          else
            let st := runRows ⟨di, de, cm.cargo_col, cm.abono_col⟩
              gd now db rules t.rows
            .ok ⟨st.total_imported, st.auto_categorized,
                 st.total_imported - st.auto_categorized,
                 st.duplicates_skipped, st.pending_transactions⟩

/-- Is the outcome an emission? -/
def isEmitO : RowOutcome → Bool
  | .emit _ => true
  | _ => false

/-- Is the outcome a counted duplicate? -/
def isDupO : RowOutcome → Bool
  | .dup => true
  | _ => false

/-- A row is structurally valid iff the row normalizer accepts it. -/
def validP (cfg : RowCfg) (gd : String → Option SDate) (now : SDate)
    (r : List (Option String)) : Bool :=
  (processRow cfg gd now r).isSome

/-- A trimmed label wins the date role when scanned. -/
def datePredH (h : String) : Bool := anyWordIn dateWords (pyLower h)

/-- A trimmed label wins the description role when scanned (the `elif`
chain: not a date label). -/
def descPredH (h : String) : Bool :=
  !datePredH h && anyWordIn descWords (pyLower h)

/-- A trimmed label wins the debit role when scanned. -/
def cargoPredH (h : String) : Bool :=
  !datePredH h && !anyWordIn descWords (pyLower h)
    && anyWordIn cargoWords (pyLower h)

/-- A trimmed label wins the credit role when scanned. -/
def abonoPredH (h : String) : Bool :=
  !datePredH h && !anyWordIn descWords (pyLower h)
    && !anyWordIn cargoWords (pyLower h) && anyWordIn abonoWords (pyLower h)

/-- The persisted state after an import whose result was `res` is
committed: every emitted pending transaction's (date, amount, truncated
description) key joins the user's pending store (`db.commit()` at the end
of `parse_bank_excel`). -/
def afterImport (db : DBState) (res : ImportResult) : DBState :=
  { db with pendingTx := db.pendingTx
      ++ res.pending_transactions.map (fun c => ⟨c.date, c.amount, c.description⟩) }

theorem runRows_total (cfg : RowCfg) (gd : String → Option SDate)
    (now : SDate) (db : DBState) (rules : List ImportRule)
    (rows : List (List (Option String))) :
    (runRows cfg gd now db rules rows).total_imported =
      rows.countP (fun r => isEmitO (rowOutcome cfg gd now db rules r)) := by
  induction rows with
  | nil => rfl
  | cons r rs ih =>
    simp only [runRows, List.countP_cons]
    cases h : rowOutcome cfg gd now db rules r <;>
      simp [h, ih, isEmitO, Nat.add_comm]

theorem runRows_dup (cfg : RowCfg) (gd : String → Option SDate)
    (now : SDate) (db : DBState) (rules : List ImportRule)
    (rows : List (List (Option String))) :
    (runRows cfg gd now db rules rows).duplicates_skipped =
      rows.countP (fun r => isDupO (rowOutcome cfg gd now db rules r)) := by
  induction rows with
  | nil => rfl
  | cons r rs ih =>
    simp only [runRows, List.countP_cons]
    cases h : rowOutcome cfg gd now db rules r <;>
      simp [h, ih, isDupO, Nat.add_comm]

theorem runRows_len (cfg : RowCfg) (gd : String → Option SDate)
    (now : SDate) (db : DBState) (rules : List ImportRule)
    (rows : List (List (Option String))) :
    (runRows cfg gd now db rules rows).pending_transactions.length =
      (runRows cfg gd now db rules rows).total_imported := by
  induction rows with
  | nil => rfl
  | cons r rs ih =>
    simp only [runRows]
    cases h : rowOutcome cfg gd now db rules r <;> simp [h, ih]

theorem rowOutcome_skip_iff (cfg : RowCfg) (gd : String → Option SDate)
    (now : SDate) (db : DBState) (rules : List ImportRule)
    (r : List (Option String)) :
    rowOutcome cfg gd now db rules r = .skip ↔
      processRow cfg gd now r = none := by
  unfold rowOutcome
  cases h : processRow cfg gd now r with
  | none => simp
  | some nr =>
    cases hx : existsRecorded db (keyOf nr) <;> simp [hx]

theorem emit_or_dup_iff_valid (cfg : RowCfg) (gd : String → Option SDate)
    (now : SDate) (db : DBState) (rules : List ImportRule)
    (r : List (Option String)) :
    (isEmitO (rowOutcome cfg gd now db rules r)
      || isDupO (rowOutcome cfg gd now db rules r)) = validP cfg gd now r := by
  unfold rowOutcome validP
  cases h : processRow cfg gd now r with
  | none => simp [isEmitO, isDupO]
  | some nr =>
    cases hx : existsRecorded db (keyOf nr) <;> simp [hx, isEmitO, isDupO]

theorem runRows_total_add_dup (cfg : RowCfg) (gd : String → Option SDate)
    (now : SDate) (db : DBState) (rules : List ImportRule)
    (rows : List (List (Option String))) :
    (runRows cfg gd now db rules rows).total_imported +
      (runRows cfg gd now db rules rows).duplicates_skipped =
      rows.countP (validP cfg gd now) := by
  induction rows with
  | nil => rfl
  | cons r rs ih =>
    simp only [runRows, List.countP_cons]
    have hv := emit_or_dup_iff_valid cfg gd now db rules r
    cases h : rowOutcome cfg gd now db rules r <;>
      simp [h, isEmitO, isDupO] at hv <;>
      simp [h, ← ih, ← hv] <;> omega

theorem processRow_amount_pos {cfg : RowCfg} {gd : String → Option SDate}
    {now : SDate} {r : List (Option String)} {nr : NormRow}
    (h : processRow cfg gd now r = some nr) : 0 < nr.amount := by
  unfold processRow at h
  dsimp only at h
  repeat' split at h
  all_goals cases h
  all_goals assumption

theorem rowOutcome_emit_inv {cfg : RowCfg} {gd : String → Option SDate}
    {now : SDate} {db : DBState} {rules : List ImportRule}
    {r : List (Option String)} {c : Candidate}
    (h : rowOutcome cfg gd now db rules r = .emit c) :
    ∃ nr, processRow cfg gd now r = some nr ∧
      existsRecorded db (keyOf nr) = false ∧
      c = ⟨apply_import_rules rules nr.descripcion, nr.amount, nr.ttype,
           nr.descripcion_corta, nr.descripcion, nr.fecha,
           (apply_import_rules rules nr.descripcion).isSome⟩ := by
  unfold rowOutcome at h
  cases hp : processRow cfg gd now r <;> rw [hp] at h
  · exact absurd h (by simp)
  · rename_i nr
    cases hx : existsRecorded db (keyOf nr) <;> simp [hx] at h
    exact ⟨nr, rfl, hx, h.symm⟩

theorem emit_amount_pos {cfg : RowCfg} {gd : String → Option SDate}
    {now : SDate} {db : DBState} {rules : List ImportRule}
    {r : List (Option String)} {c : Candidate}
    (h : rowOutcome cfg gd now db rules r = .emit c) : 0 < c.amount := by
  obtain ⟨nr, hp, _, hc⟩ := rowOutcome_emit_inv h
  rw [hc]
  exact processRow_amount_pos hp

theorem mem_pending_outcome {cfg : RowCfg} {gd : String → Option SDate}
    {now : SDate} {db : DBState} {rules : List ImportRule}
    {rows : List (List (Option String))} {c : Candidate}
    (h : c ∈ (runRows cfg gd now db rules rows).pending_transactions) :
    ∃ r ∈ rows, rowOutcome cfg gd now db rules r = .emit c := by
  induction rows with
  | nil => exact absurd h (by simp [runRows])
  | cons r rs ih =>
    simp only [runRows] at h
    cases ho : rowOutcome cfg gd now db rules r <;> rw [ho] at h
    · obtain ⟨x, hx, he⟩ := ih h
      exact ⟨x, List.mem_cons_of_mem _ hx, he⟩
    · obtain ⟨x, hx, he⟩ := ih h
      exact ⟨x, List.mem_cons_of_mem _ hx, he⟩
    · rename_i c0
      rcases List.mem_cons.mp h with hc | hc
      · exact ⟨r, List.mem_cons_self _ _, by rw [ho, hc]⟩
      · obtain ⟨x, hx, he⟩ := ih hc
        exact ⟨x, List.mem_cons_of_mem _ hx, he⟩

theorem outcome_emit_mem_pending {cfg : RowCfg} {gd : String → Option SDate}
    {now : SDate} {db : DBState} {rules : List ImportRule}
    {rows : List (List (Option String))} {r : List (Option String)}
    {c : Candidate} (hr : r ∈ rows)
    (h : rowOutcome cfg gd now db rules r = .emit c) :
    c ∈ (runRows cfg gd now db rules rows).pending_transactions := by
  induction rows with
  | nil => exact absurd hr (by simp)
  | cons x xs ih =>
    simp only [runRows]
    rcases List.mem_cons.mp hr with hx | hx
    · subst hx
      rw [h]
      exact List.mem_cons_self _ _
    · cases ho : rowOutcome cfg gd now db rules x <;> simp only
      · exact ih hx
      · exact ih hx
      · exact List.mem_cons_of_mem _ (ih hx)

theorem parse_ok_struct {gd : String → Option SDate} {now : SDate}
    {db : DBState} {rules : List ImportRule} {t : Table} {res : ImportResult}
    (h : parse_bank_excel gd now db rules (some t) = .ok res) :
    ∃ di de,
      t.rows.isEmpty = false ∧
      (resolveColumns t.headers).date_col = some di ∧
      (resolveColumns t.headers).desc_col = some de ∧
      ((resolveColumns t.headers).cargo_col.isNone
        && (resolveColumns t.headers).abono_col.isNone) = false ∧
      res = (let st := runRows
                ⟨di, de, (resolveColumns t.headers).cargo_col,
                 (resolveColumns t.headers).abono_col⟩ gd now db rules t.rows
             ⟨st.total_imported, st.auto_categorized,
              st.total_imported - st.auto_categorized,
              st.duplicates_skipped, st.pending_transactions⟩) := by
  unfold parse_bank_excel at h
  dsimp only at h
  cases he : t.rows.isEmpty <;> rw [he] at h
  · cases hd : (resolveColumns t.headers).date_col <;> rw [hd] at h
    · exact absurd h (by simp)
    · rename_i di
      cases hdesc : (resolveColumns t.headers).desc_col <;> rw [hdesc] at h
      · exact absurd h (by simp)
      · rename_i de
        cases hb : ((resolveColumns t.headers).cargo_col.isNone
            && (resolveColumns t.headers).abono_col.isNone) <;> rw [hb] at h
        · simp only [Bool.false_eq_true, if_false] at h
          refine ⟨di, de, rfl, rfl, rfl, rfl, ?_⟩
          cases h
          rfl
        · exact absurd h (by simp)
  · exact absurd h (by simp)

theorem foldl_resolveStep_char (l : List (Nat × String)) (acc : ColMap) :
    ((l.foldl resolveStep acc).date_col =
      (match (l.filter (fun ic => datePredH ic.2)).getLast? with
       | some ic => some ic.1
       | none => acc.date_col)) ∧
    ((l.foldl resolveStep acc).desc_col =
      (match (l.filter (fun ic => descPredH ic.2)).getLast? with
       | some ic => some ic.1
       | none => acc.desc_col)) ∧
    ((l.foldl resolveStep acc).cargo_col =
      (match (l.filter (fun ic => cargoPredH ic.2)).getLast? with
       | some ic => some ic.1
       | none => acc.cargo_col)) ∧
    ((l.foldl resolveStep acc).abono_col =
      (match (l.filter (fun ic => abonoPredH ic.2)).getLast? with
       | some ic => some ic.1
       | none => acc.abono_col)) := by
  induction l using List.reverseRecOn with
  | nil => exact ⟨rfl, rfl, rfl, rfl⟩
  | append_singleton l ic ih =>
    obtain ⟨ih1, ih2, ih3, ih4⟩ := ih
    have e : (l ++ [ic]).foldl resolveStep acc
        = resolveStep (l.foldl resolveStep acc) ic := by
      rw [List.foldl_append]
      rfl
    cases hd : anyWordIn dateWords (pyLower ic.2) <;>
      cases hde : anyWordIn descWords (pyLower ic.2) <;>
        cases hc : anyWordIn cargoWords (pyLower ic.2) <;>
          cases ha : anyWordIn abonoWords (pyLower ic.2) <;>
            simp [e, resolveStep, datePredH, descPredH, cargoPredH, abonoPredH,
              hd, hde, hc, ha, List.filter_append, List.getLast?_concat,
              ih1, ih2, ih3, ih4]

theorem resolveColumns_char (hs : List String) :
    (resolveColumns hs).date_col = lastIdxP datePredH (hs.map pyStrip) ∧
    (resolveColumns hs).desc_col = lastIdxP descPredH (hs.map pyStrip) ∧
    (resolveColumns hs).cargo_col = lastIdxP cargoPredH (hs.map pyStrip) ∧
    (resolveColumns hs).abono_col = lastIdxP abonoPredH (hs.map pyStrip) := by
  obtain ⟨g1, g2, g3, g4⟩ :=
    foldl_resolveStep_char ((hs.map pyStrip).enum) ⟨none, none, none, none⟩
  unfold resolveColumns lastIdxP
  refine ⟨?_, ?_, ?_, ?_⟩ <;> [rw [g1]; rw [g2]; rw [g3]; rw [g4]] <;>
    rcases ((hs.map pyStrip).enum.filter _).getLast? with _ | ic <;> rfl

/-- C2 is false as stated: the resolver does not use first-match-wins
membership. With headers ["Fecha", "Date", "Descripcion", "Cargo"] the
code assigns the date role to column 1 (the LAST matching column), while
the claimed first-member rule picks column 0; and the label "Fecha Valor",
which is not a member of any keyword set, still wins the date role by
substring containment (the claimed rule resolves nothing for it). -/
theorem C2_counterexample :
    (resolveColumns ["Fecha", "Date", "Descripcion", "Cargo"]).date_col = some 1
    ∧ (specResolveFirstMember
        ["Fecha", "Date", "Descripcion", "Cargo"]).date_col = some 0
    ∧ resolveColumns ["Fecha", "Date", "Descripcion", "Cargo"]
        ≠ specResolveFirstMember ["Fecha", "Date", "Descripcion", "Cargo"]
    ∧ (resolveColumns ["Fecha Valor", "Detalle", "Cargo"]).date_col = some 0
    ∧ (specResolveFirstMember ["Fecha Valor", "Detalle", "Cargo"]).date_col
        = none := by
  decide

/-- C2 amended: for every header list, the resolver assigns each role to
the LAST column, in column order, whose trimmed and lowercased label
CONTAINS one of that role's keywords as a substring and is not claimed by
an earlier role of the `if/elif` chain (date, then description, then
debit, then credit); labels merely containing a keyword do match. -/
theorem C2_amended_last_substring_wins (hs : List String) :
    (resolveColumns hs).date_col = lastIdxP datePredH (hs.map pyStrip) ∧
    (resolveColumns hs).desc_col = lastIdxP descPredH (hs.map pyStrip) ∧
    (resolveColumns hs).cargo_col = lastIdxP cargoPredH (hs.map pyStrip) ∧
    (resolveColumns hs).abono_col = lastIdxP abonoPredH (hs.map pyStrip) :=
  resolveColumns_char hs

/-- C3 is false in its rounding half: the code never rounds the parsed
amount. The debit cell "0,125" yields an emitted candidate whose amount
is exactly 0.125 = 125/1000, whose reduced denominator 8 does not divide
100, i.e. it has three decimal digits, not at most two. -/
theorem C3_counterexample :
    (parse_bank_excel (fun _ => none) ⟨2025, 6, 10⟩ ⟨[], []⟩ []
        (some ⟨["Fecha", "Descripción", "Cargo"],
               [[some "02/Ene", some "COMPRA", some "0,125"]]⟩)).toOption.map
      (fun res => res.pending_transactions.map (fun c => c.amount))
      = some [mkRat 125 1000]
    ∧ (mkRat 125 1000).den = 8
    ∧ ¬ (mkRat 125 1000).den ∣ 100 := by
  decide

/-- C3 amended: every CandidateTransaction emitted by the pipeline has
amount strictly greater than 0; the amount is the exactly parsed cell
value — no rounding to 2 decimal places is applied, so it may carry more
than 2 decimal digits. -/
theorem C3_amended_amount_pos (gd : String → Option SDate) (now : SDate)
    (db : DBState) (rules : List ImportRule) (t : Table) (res : ImportResult)
    (h : parse_bank_excel gd now db rules (some t) = .ok res) :
    ∀ c ∈ res.pending_transactions, 0 < c.amount := by
  intro c hc
  obtain ⟨di, de, -, -, -, -, hres⟩ := parse_ok_struct h
  subst hres
  obtain ⟨r, -, he⟩ := mem_pending_outcome hc
  exact emit_amount_pos he

/-- Witness for C3's amended theorem at a concrete import. -/
theorem C3_amended_amount_pos_witness : 0 < mkRat 125 1000 :=
  C3_amended_amount_pos (fun _ => none) ⟨2025, 6, 10⟩ ⟨[], []⟩ []
    ⟨["Fecha", "Descripción", "Cargo"],
     [[some "02/Ene", some "COMPRA", some "0,125"]]⟩
    ⟨1, 0, 1, 0, [⟨none, mkRat 125 1000, 2, "COMPRA", "COMPRA",
      ⟨2025, 1, 2⟩, false⟩]⟩
    rfl
    ⟨none, mkRat 125 1000, 2, "COMPRA", "COMPRA", ⟨2025, 1, 2⟩, false⟩
    (by decide)

/-- C6: with the rules {keyword "uber", category a, priority 10} and
{keyword "u", category b, priority 5} (in either arrival order), every
description containing "uber" (after lowercasing) is assigned category a,
the match flag is set, and — at the pipeline level — the emitted candidate
carries `category_id = some a` and `auto_categorized = true`. -/
theorem C6_rule_priority (a b : Nat) (d : String)
    (h : strHasSub "uber" (pyLower d) = true)
    (rs : List ImportRule)
    (hrs : rs = [⟨"u", b, 5, true⟩, ⟨"uber", a, 10, true⟩]
         ∨ rs = [⟨"uber", a, 10, true⟩, ⟨"u", b, 5, true⟩]) :
    apply_import_rules rs d = some a
    ∧ (apply_import_rules rs d).isSome = true
    ∧ (∀ (cfg : RowCfg) (gd : String → Option SDate) (now : SDate)
         (r : List (Option String)) (nr : NormRow),
        processRow cfg gd now r = some nr → nr.descripcion = d →
        rowOutcome cfg gd now ⟨[], []⟩ rs r
          = .emit ⟨some a, nr.amount, nr.ttype, nr.descripcion_corta,
                   nr.descripcion, nr.fecha, true⟩) := by
  have key : apply_import_rules rs d = some a := by
    have hu : pyLower "uber" = "uber" := by decide
    rcases hrs with h1 | h1 <;> subst h1 <;>
      (unfold apply_import_rules
       simp [get_import_rules, List.insertionSort, List.orderedInsert,
         List.find?, hu, h])
  refine ⟨key, by rw [key]; rfl, ?_⟩
  intro cfg gd now r nr hp hd2
  unfold rowOutcome
  rw [hp]
  simp [existsRecorded, hd2, key]

/-- Witness for C6 at a concrete rule set and description. -/
theorem C6_rule_priority_witness :
    apply_import_rules [⟨"u", 2, 5, true⟩, ⟨"uber", 1, 10, true⟩]
      "PAGO UBER VIAJE" = some 1 :=
  (C6_rule_priority 1 2 "PAGO UBER VIAJE" (by decide) _ (Or.inl rfl)).1

/-- C7: for any date cell that passes the shorthand pre-check, splits on
'/' into exactly a day token and a month token, and whose lowercased month
token is an exact key of `meses_es`, the parsed result is `strptime` of
the inferred year: December while the current month is January gives the
previous year, January while the current month is December gives the next
year, anything else the current year; in particular "31/Dic" parsed on
2026-01-15 yields 2025-12-31. -/
theorem C7_shorthand_year_inference (now : SDate) (fecha_str dd mon : String)
    (mes : Nat)
    (hc : pyHasChar '/' fecha_str = true)
    (hm : meses_es.any (fun p => strHasSub p.1 (pyLower fecha_str)) = true)
    (hsp : pySplit '/' fecha_str = [dd, mon])
    (hmes : lookupMes (pyLower mon) meses_es = some mes) :
    parseShorthand now fecha_str
      = strptimeYMD (inferYear now mes) mes (zfill 2 dd)
    ∧ (mes = 12 ∧ now.month = 1 → inferYear now mes = now.year - 1)
    ∧ (mes = 1 ∧ now.month = 12 → inferYear now mes = now.year + 1)
    ∧ (¬(mes = 12 ∧ now.month = 1) → ¬(mes = 1 ∧ now.month = 12) →
        inferYear now mes = now.year)
    ∧ parseShorthand ⟨2026, 1, 15⟩ "31/Dic" = some ⟨2025, 12, 31⟩ := by
  refine ⟨?_, ?_, ?_, ?_, by decide⟩
  · unfold parseShorthand
    rw [hc, hm, hsp]
    simp [hmes]
  · rintro ⟨h1, h2⟩
    simp [inferYear, h1, h2]
  · rintro ⟨h1, h2⟩
    simp [inferYear, h1, h2]
  · intro h1 h2
    simp [inferYear, h1, h2]

/-- Witness for C7 at the concrete cell "31/Dic" on 2026-01-15. -/
theorem C7_shorthand_year_inference_witness :
    parseShorthand ⟨2026, 1, 15⟩ "31/Dic" = some ⟨2025, 12, 31⟩
    ∧ inferYear ⟨2026, 1, 15⟩ 12 = 2025 := by
  have h := C7_shorthand_year_inference ⟨2026, 1, 15⟩ "31/Dic" "31" "Dic" 12
    (by decide) (by decide) (by decide) (by decide)
  exact ⟨h.2.2.2.2, (h.2.1 ⟨rfl, rfl⟩).trans (by decide)⟩

/-- C8: the debit/credit cell "1.234,56" parses to exactly 1234.56
(periods stripped, decimal comma to decimal point); the empty cell parses
to 0 without raising; and any cell whose normalized text fails to parse as
a decimal is treated as 0 rather than aborting the row. -/
theorem C8_amount_cell_parsing :
    readAmount [some "1.234,56"] (some 0) = mkRat 123456 100
    ∧ mkRat 123456 100 = (1234.56 : Rat)
    ∧ readAmount [some ""] (some 0) = 0
    ∧ (∀ (s : String) (r : List (Option String)) (i : Nat),
        r.getD i none = some s →
        pyFloat? (pyStrip (pyReplaceChar ',' '.' (pyRemoveAll '.' s))) = none →
        readAmount r (some i) = 0) := by
  refine ⟨by decide, by rw [Rat.mkRat_eq_div]; norm_num, by decide, ?_⟩
  intro s r i hr hf
  unfold readAmount
  dsimp only
  rw [hr]
  by_cases h0 : pyStrip s = ""
  · simp [h0]
  · simp [h0, hf]

/-- Witness for C8's unparseable-cell clause at the concrete cell "abc". -/
theorem C8_amount_cell_parsing_witness :
    readAmount [some "abc"] (some 0) = 0 :=
  C8_amount_cell_parsing.2.2.2 "abc" [some "abc"] 0 (by decide) (by decide)

/-- C10 (implicit behavior): a date cell that passes the shorthand
pre-check and splits into exactly two parts, but whose lowercased month
token is NOT an exact key of `meses_es` (e.g. "Ene." with a trailing
period), silently defaults the month to January instead of falling back to
generic date parsing; concretely "02/Ene." parsed with current date
2025-06-10 yields 2025-01-02 regardless of the fallback parser. -/
theorem C10_unknown_month_defaults_january (now : SDate)
    (fecha_str dd mon : String)
    (hc : pyHasChar '/' fecha_str = true)
    (hm : meses_es.any (fun p => strHasSub p.1 (pyLower fecha_str)) = true)
    (hsp : pySplit '/' fecha_str = [dd, mon])
    (hmes : lookupMes (pyLower mon) meses_es = none) :
    parseShorthand now fecha_str
      = strptimeYMD (inferYear now 1) 1 (zfill 2 dd)
    ∧ (∀ gd : String → Option SDate,
        parseDateCell gd ⟨2025, 6, 10⟩ "02/Ene." = some ⟨2025, 1, 2⟩) := by
  constructor
  · unfold parseShorthand
    rw [hc, hm, hsp]
    simp [hmes]
  · intro gd
    unfold parseDateCell
    rw [show parseShorthand ⟨2025, 6, 10⟩ (pyStrip "02/Ene.")
        = some ⟨2025, 1, 2⟩ from by decide]

/-- Witness for C10 at the concrete cell "02/Ene.". -/
theorem C10_unknown_month_defaults_january_witness :
    parseDateCell (fun _ => none) ⟨2025, 6, 10⟩ "02/Ene." = some ⟨2025, 1, 2⟩ :=
  (C10_unknown_month_defaults_january ⟨2025, 6, 10⟩ "02/Ene." "02" "Ene."
    (by decide) (by decide) (by decide) (by decide)).2 (fun _ => none)

/-- C5: for every successfully loaded and resolved table,
`total_imported + duplicates_skipped` equals the number of structurally
valid rows (those the row normalizer accepts: parseable date, non-empty
non-"nan" non-boilerplate description, positive debit or credit); skipped
rows count toward no statistic, and
`needs_review = total_imported - auto_categorized`. -/
theorem C5_stats_partition (gd : String → Option SDate) (now : SDate)
    (db : DBState) (rules : List ImportRule) (t : Table) (res : ImportResult)
    (di de : Nat)
    (hd : (resolveColumns t.headers).date_col = some di)
    (hde : (resolveColumns t.headers).desc_col = some de)
    (h : parse_bank_excel gd now db rules (some t) = .ok res) :
    res.total_imported + res.duplicates_skipped
      = t.rows.countP (validP ⟨di, de, (resolveColumns t.headers).cargo_col,
          (resolveColumns t.headers).abono_col⟩ gd now)
    ∧ res.needs_review = res.total_imported - res.auto_categorized
    ∧ res.pending_transactions.length = res.total_imported := by
  obtain ⟨di', de', -, hd', hde', -, hres⟩ := parse_ok_struct h
  rw [hd] at hd'
  rw [hde] at hde'
  cases Option.some.inj hd'
  cases Option.some.inj hde'
  subst hres
  refine ⟨?_, rfl, ?_⟩
  · exact runRows_total_add_dup _ gd now db rules t.rows
  · exact runRows_len _ gd now db rules t.rows

/-- Witness for C5 at a concrete two-row file (one valid imported row, one
row with a NaN date that is skipped and counted nowhere). -/
theorem C5_stats_partition_witness :
    [[some "02/Ene", some "COMPRA", some "150"],
     [none, some "X", some "5"]].countP
      (validP ⟨0, 1, some 2, none⟩ (fun _ => none) ⟨2025, 6, 10⟩) = 1 := by
  have h := (C5_stats_partition (fun _ => none) ⟨2025, 6, 10⟩ ⟨[], []⟩ []
    ⟨["Fecha", "Detalle", "Cargo"],
     [[some "02/Ene", some "COMPRA", some "150"],
      [none, some "X", some "5"]]⟩
    ⟨1, 0, 1, 0, [⟨none, mkRat 150 1, 2, "COMPRA", "COMPRA",
      ⟨2025, 1, 2⟩, false⟩]⟩
    0 1 (by decide) (by decide) rfl).1
  exact h.symm

/-- C9: a missing/empty loader result or an unresolvable required role
makes the whole import an error carrying no partial result, while row
processing never fails the pipeline: with resolution in hand the result is
always `ok`, and the counters over concatenated row lists are the sums of
the counters of the pieces (each row is processed independently). -/
theorem C9_fatal_vs_row_failures (gd : String → Option SDate) (now : SDate)
    (db : DBState) (rules : List ImportRule) :
    parse_bank_excel gd now db rules none
      = .error "No se pudo leer el archivo. Verifica el formato."
    ∧ (∀ t : Table, t.rows.isEmpty = true →
        parse_bank_excel gd now db rules (some t)
          = .error "No se pudo leer el archivo. Verifica el formato.")
    ∧ (∀ t : Table, ((resolveColumns t.headers).date_col = none
          ∨ (resolveColumns t.headers).desc_col = none
          ∨ ((resolveColumns t.headers).cargo_col = none
             ∧ (resolveColumns t.headers).abono_col = none)) →
        ∀ res, parse_bank_excel gd now db rules (some t) ≠ .ok res)
    ∧ (∀ (t : Table) (di de : Nat), t.rows.isEmpty = false →
        (resolveColumns t.headers).date_col = some di →
        (resolveColumns t.headers).desc_col = some de →
        ((resolveColumns t.headers).cargo_col.isNone
          && (resolveColumns t.headers).abono_col.isNone) = false →
        (parse_bank_excel gd now db rules (some t)).isOk = true)
    ∧ (∀ (cfg : RowCfg) (rows₁ rows₂ : List (List (Option String))),
        (runRows cfg gd now db rules (rows₁ ++ rows₂)).total_imported
          = (runRows cfg gd now db rules rows₁).total_imported
            + (runRows cfg gd now db rules rows₂).total_imported
        ∧ (runRows cfg gd now db rules (rows₁ ++ rows₂)).duplicates_skipped
          = (runRows cfg gd now db rules rows₁).duplicates_skipped
            + (runRows cfg gd now db rules rows₂).duplicates_skipped) := by
  refine ⟨rfl, ?_, ?_, ?_, ?_⟩
  · intro t ht
    unfold parse_bank_excel
    dsimp only
    rw [ht]
    rfl
  · intro t hcase res hok
    obtain ⟨di, de, -, hd, hde, hb, -⟩ := parse_ok_struct hok
    rcases hcase with hc | hc | ⟨hc1, hc2⟩
    · rw [hc] at hd
      exact Option.noConfusion hd
    · rw [hc] at hde
      exact Option.noConfusion hde
    · rw [hc1, hc2] at hb
      exact Bool.noConfusion hb
  · intro t di de ht hd hde hb
    unfold parse_bank_excel
    dsimp only
    rw [ht, hd, hde, hb]
    rfl
  · intro cfg rows₁ rows₂
    constructor
    · rw [runRows_total, runRows_total, runRows_total, List.countP_append]
    · rw [runRows_dup, runRows_dup, runRows_dup, List.countP_append]

/-- Witness for C9: error on a missing table, success once roles resolve,
at concrete inputs. -/
theorem C9_fatal_vs_row_failures_witness :
    (parse_bank_excel (fun _ => none) ⟨2025, 6, 10⟩ ⟨[], []⟩ []
      (some ⟨["Fecha", "Detalle", "Cargo"], [[none, none, none]]⟩)).isOk
      = true :=
  (C9_fatal_vs_row_failures (fun _ => none) ⟨2025, 6, 10⟩ ⟨[], []⟩
    []).2.2.2.1 ⟨["Fecha", "Detalle", "Cargo"], [[none, none, none]]⟩ 0 1
    (by decide) (by decide) (by decide) (by decide)

/-- C1: duplicate detection compares a normalized row only against the
persisted state `db`, never against candidates produced earlier in the
same batch: a file whose rows contain the same structurally valid,
not-yet-persisted row `r` twice emits candidates for BOTH occurrences —
`total_imported` counts the other emitted rows plus 2, and every
counted import corresponds to an emitted CandidateTransaction. -/
theorem C1_intra_batch_not_deduplicated (gd : String → Option SDate)
    (now : SDate) (db : DBState) (rules : List ImportRule)
    (hs : List String) (l₁ l₂ l₃ : List (List (Option String)))
    (r : List (Option String)) (nr : NormRow) (di de : Nat)
    (res : ImportResult)
    (hd : (resolveColumns hs).date_col = some di)
    (hde : (resolveColumns hs).desc_col = some de)
    (hp : processRow ⟨di, de, (resolveColumns hs).cargo_col,
            (resolveColumns hs).abono_col⟩ gd now r = some nr)
    (hnew : existsRecorded db (keyOf nr) = false)
    (h : parse_bank_excel gd now db rules
          (some ⟨hs, l₁ ++ r :: l₂ ++ r :: l₃⟩) = .ok res) :
    res.total_imported
      = (l₁ ++ l₂ ++ l₃).countP
          (fun row => isEmitO (rowOutcome ⟨di, de,
            (resolveColumns hs).cargo_col, (resolveColumns hs).abono_col⟩
            gd now db rules row)) + 2
    ∧ res.pending_transactions.length = res.total_imported := by
  obtain ⟨di', de', -, hd', hde', -, hres⟩ := parse_ok_struct h
  rw [hd] at hd'
  rw [hde] at hde'
  cases Option.some.inj hd'
  cases Option.some.inj hde'
  subst hres
  have hemit : isEmitO (rowOutcome ⟨di, de, (resolveColumns hs).cargo_col,
      (resolveColumns hs).abono_col⟩ gd now db rules r) = true := by
    unfold rowOutcome
    rw [hp]
    simp [hnew, isEmitO]
  constructor
  · dsimp only
    rw [runRows_total]
    simp [List.countP_append, List.countP_cons, hemit]
    omega
  · exact runRows_len _ gd now db rules _

/-- Witness for C1: a file consisting of the same valid row twice, against
an empty store, imports both copies. -/
theorem C1_intra_batch_not_deduplicated_witness :
    (2 : Nat) = ([] : List (List (Option String))).countP
        (fun row => isEmitO (rowOutcome ⟨0, 1,
          (resolveColumns ["Fecha", "Detalle", "Cargo"]).cargo_col,
          (resolveColumns ["Fecha", "Detalle", "Cargo"]).abono_col⟩
          (fun _ => none) ⟨2025, 6, 10⟩ ⟨[], []⟩ [] row)) + 2
    ∧ (2 : Nat) = 2 :=
  C1_intra_batch_not_deduplicated (fun _ => none) ⟨2025, 6, 10⟩ ⟨[], []⟩ []
    ["Fecha", "Detalle", "Cargo"] [] [] []
    [some "02/Ene", some "COMPRA", some "150"]
    ⟨⟨2025, 1, 2⟩, mkRat 150 1, 2, "COMPRA", "COMPRA"⟩ 0 1
    ⟨2, 0, 2, 0,
     [⟨none, mkRat 150 1, 2, "COMPRA", "COMPRA", ⟨2025, 1, 2⟩, false⟩,
      ⟨none, mkRat 150 1, 2, "COMPRA", "COMPRA", ⟨2025, 1, 2⟩, false⟩]⟩
    (by decide) (by decide) (by decide) (by decide) rfl

theorem existsRecorded_afterImport {db : DBState} {res : ImportResult}
    {k : TxKey} (h : existsRecorded db k = true) :
    existsRecorded (afterImport db res) k = true := by
  simp only [existsRecorded, afterImport, List.any_append,
    Bool.or_eq_true] at h ⊢
  tauto

theorem existsRecorded_of_mem_pending {db : DBState} {k : TxKey}
    (h : k ∈ db.pendingTx) : existsRecorded db k = true := by
  unfold existsRecorded
  simp only [Bool.or_eq_true, List.any_eq_true]
  exact Or.inr ⟨k, h, by simp⟩

theorem key_recorded_after {cfg : RowCfg} {gd : String → Option SDate}
    {now : SDate} {db : DBState} {rules : List ImportRule}
    {rows : List (List (Option String))} {r : List (Option String)}
    {nr : NormRow} {res : ImportResult}
    (hr : r ∈ rows) (hp : processRow cfg gd now r = some nr)
    (hres : res.pending_transactions
        = (runRows cfg gd now db rules rows).pending_transactions) :
    existsRecorded (afterImport db res) (keyOf nr) = true := by
  cases hx : existsRecorded db (keyOf nr)
  · have hout : rowOutcome cfg gd now db rules r = .emit
        ⟨apply_import_rules rules nr.descripcion, nr.amount, nr.ttype,
         nr.descripcion_corta, nr.descripcion, nr.fecha,
         (apply_import_rules rules nr.descripcion).isSome⟩ := by
      unfold rowOutcome
      rw [hp]
      simp [hx]
    have hmem := outcome_emit_mem_pending hr hout
    apply existsRecorded_of_mem_pending
    unfold afterImport
    dsimp only
    refine List.mem_append_right _ ?_
    rw [hres]
    exact List.mem_map.mpr ⟨_, hmem, rfl⟩
  · exact existsRecorded_afterImport hx

/-- C4: re-importing the same file for the same user at the same current
date, after the first run's candidates were committed and kept, imports
nothing: `total_imported = 0` on the second run, and the second run's
`duplicates_skipped` counts exactly the first run's imports plus its
already-duplicate rows — so when the first run skipped no duplicates it
equals `total_imported` of the first run. -/
theorem C4_reimport_idempotence (gd : String → Option SDate) (now : SDate)
    (db : DBState) (rules : List ImportRule) (t : Table)
    (res₁ res₂ : ImportResult)
    (h1 : parse_bank_excel gd now db rules (some t) = .ok res₁)
    (h2 : parse_bank_excel gd now (afterImport db res₁) rules (some t)
            = .ok res₂) :
    res₂.total_imported = 0
    ∧ res₂.duplicates_skipped
        = res₁.total_imported + res₁.duplicates_skipped
    ∧ (res₁.duplicates_skipped = 0 →
        res₂.duplicates_skipped = res₁.total_imported) := by
  obtain ⟨di, de, -, hd, hde, -, hres1⟩ := parse_ok_struct h1
  obtain ⟨di', de', -, hd', hde', -, hres2⟩ := parse_ok_struct h2
  rw [hd] at hd'
  rw [hde] at hde'
  cases Option.some.inj hd'
  cases Option.some.inj hde'
  have e1t : res₁.total_imported
      = (runRows ⟨di, de, (resolveColumns t.headers).cargo_col,
          (resolveColumns t.headers).abono_col⟩ gd now db rules
          t.rows).total_imported := by rw [hres1]
  have e1d : res₁.duplicates_skipped
      = (runRows ⟨di, de, (resolveColumns t.headers).cargo_col,
          (resolveColumns t.headers).abono_col⟩ gd now db rules
          t.rows).duplicates_skipped := by rw [hres1]
  have e1p : res₁.pending_transactions
      = (runRows ⟨di, de, (resolveColumns t.headers).cargo_col,
          (resolveColumns t.headers).abono_col⟩ gd now db rules
          t.rows).pending_transactions := by rw [hres1]
  have e2t : res₂.total_imported
      = (runRows ⟨di, de, (resolveColumns t.headers).cargo_col,
          (resolveColumns t.headers).abono_col⟩ gd now (afterImport db res₁)
          rules t.rows).total_imported := by rw [hres2]
  have e2d : res₂.duplicates_skipped
      = (runRows ⟨di, de, (resolveColumns t.headers).cargo_col,
          (resolveColumns t.headers).abono_col⟩ gd now (afterImport db res₁)
          rules t.rows).duplicates_skipped := by rw [hres2]
  have hout2 : ∀ r ∈ t.rows,
      isEmitO (rowOutcome ⟨di, de, (resolveColumns t.headers).cargo_col,
        (resolveColumns t.headers).abono_col⟩ gd now (afterImport db res₁)
        rules r) = false
      ∧ isDupO (rowOutcome ⟨di, de, (resolveColumns t.headers).cargo_col,
          (resolveColumns t.headers).abono_col⟩ gd now (afterImport db res₁)
          rules r)
        = validP ⟨di, de, (resolveColumns t.headers).cargo_col,
            (resolveColumns t.headers).abono_col⟩ gd now r := by
    intro r hr
    cases hp : processRow ⟨di, de, (resolveColumns t.headers).cargo_col,
        (resolveColumns t.headers).abono_col⟩ gd now r with
    | none =>
      have hsk := (rowOutcome_skip_iff _ gd now (afterImport db res₁)
        rules r).mpr hp
      simp [hsk, isEmitO, isDupO, validP, hp]
    | some nr =>
      have hk := @key_recorded_after _ gd now db rules _ r nr _ hr hp e1p
      have hdup : rowOutcome ⟨di, de, (resolveColumns t.headers).cargo_col,
          (resolveColumns t.headers).abono_col⟩ gd now (afterImport db res₁)
          rules r = .dup := by
        unfold rowOutcome
        rw [hp]
        simp [hk]
      simp [hdup, isEmitO, isDupO, validP, hp]
  have hfirst : res₂.total_imported = 0 := by
    rw [e2t, runRows_total]
    refine List.countP_eq_zero.mpr ?_
    intro r hr
    simp [(hout2 r hr).1]
  have hsecond : res₂.duplicates_skipped
      = res₁.total_imported + res₁.duplicates_skipped := by
    rw [e2d, e1t, e1d, runRows_dup]
    have hc : t.rows.countP (fun r => isDupO (rowOutcome ⟨di, de,
          (resolveColumns t.headers).cargo_col,
          (resolveColumns t.headers).abono_col⟩ gd now (afterImport db res₁)
          rules r))
        = t.rows.countP (validP ⟨di, de,
            (resolveColumns t.headers).cargo_col,
            (resolveColumns t.headers).abono_col⟩ gd now) := by
      refine List.countP_congr ?_
      intro r hr
      simp [(hout2 r hr).2]
    rw [hc]
    exact (runRows_total_add_dup _ gd now db rules t.rows).symm
  exact ⟨hfirst, hsecond, fun h0 => by rw [hsecond, h0]; omega⟩

/-- Witness for C4: importing a one-row file twice against an initially
empty store; the second run imports 0 and counts 1 duplicate. -/
theorem C4_reimport_idempotence_witness :
    (0 : Nat) = 0 ∧ (1 : Nat) = 1 + 0 ∧ ((0 : Nat) = 0 → (1 : Nat) = 1) :=
  C4_reimport_idempotence (fun _ => none) ⟨2025, 6, 10⟩ ⟨[], []⟩ []
    ⟨["Fecha", "Detalle", "Cargo"],
     [[some "02/Ene", some "COMPRA", some "150"]]⟩
    ⟨1, 0, 1, 0, [⟨none, mkRat 150 1, 2, "COMPRA", "COMPRA",
      ⟨2025, 1, 2⟩, false⟩]⟩
    ⟨0, 0, 0, 1, []⟩
    rfl rfl
